import Mathlib

/-
Verification development for the Chimera repository.

Shallow embedding of:
  * `injection_system.py` — adaptive injection engine (volatility, entropy,
    priority-ordered composition under a token budget, cache policy with
    dynamic TTL, per-user injection counters);
  * `proactive_initiation.py` — silence mode, continuation-candidate quality,
    response correlation, schedule status transitions;
  * `proactive_commands.py` / `cron_jobs.py` — cancellation of pending rows;
  * `config.py` — default configuration values.

Python floats are modelled as real numbers (exact arithmetic on the literals
involved), machine integers as `ℤ`/`ℕ`, timestamps as integer seconds (UTC),
fallible lookups as `Option`.  Redis / PostgreSQL state is passed explicitly.
-/

-- ========================================
-- Rational 4-vectors (numpy arrays of length 4 used by VectorAnchorSystem)
-- ========================================

structure Vec4 where
  a : ℚ
  b : ℚ
  c : ℚ
  d : ℚ
deriving DecidableEq, Repr

def Vec4.add (u v : Vec4) : Vec4 := ⟨u.a + v.a, u.b + v.b, u.c + v.c, u.d + v.d⟩

def Vec4.smul (q : ℚ) (v : Vec4) : Vec4 := ⟨q * v.a, q * v.b, q * v.c, q * v.d⟩

def Vec4.zero : Vec4 := ⟨0, 0, 0, 0⟩

/-- componentwise `np.clip(v, 0, 1)` -/
def Vec4.clip01 (v : Vec4) : Vec4 :=
  ⟨min (max v.a 0) 1, min (max v.b 0) 1, min (max v.c 0) 1, min (max v.d 0) 1⟩

def Vec4.dot (u v : Vec4) : ℚ := u.a * v.a + u.b * v.b + u.c * v.c + u.d * v.d

/-- `np.linalg.norm` (euclidean) -/
noncomputable def vecNorm (v : Vec4) : ℝ := Real.sqrt ((Vec4.dot v v : ℚ) : ℝ)

-- ========================================
-- History records (dicts with 'role', 'content', optional 'bot_mode')
-- ========================================

structure Msg where
  role : String
  botMode : Option String
  content : String
deriving DecidableEq, Repr

/-- Python slice `l[-n:]`. -/
def lastN (n : ℕ) (l : List α) : List α := l.drop (l.length - n)

-- VectorAnchorSystem.STYLE_VECTORS
def playfulVec : Vec4 := ⟨8/10, 2/10, 6/10, 9/10⟩
def analyticalVec : Vec4 := ⟨3/10, 9/10, 4/10, 2/10⟩
def mysticalVec : Vec4 := ⟨5/10, 4/10, 3/10, 95/100⟩
def ironicVec : Vec4 := ⟨6/10, 3/10, 95/100, 4/10⟩
def neutralVec : Vec4 := ⟨1/2, 1/2, 1/2, 1/2⟩

/-- per-message contribution inside `encode_user_style`'s loop body -/
def modeContribution (m : Msg) : Vec4 :=
  match m.botMode with
  | some "talk" => Vec4.smul (1/10) playfulVec
  | some "expert" => Vec4.smul (1/10) analyticalVec
  | some "writer" => Vec4.smul (1/10) mysticalVec
  | _ => Vec4.zero

/-- `VectorAnchorSystem.encode_user_style` -/
def encodeUserStyle (userHistory : List Msg) : Vec4 :=
  if userHistory.isEmpty then neutralVec
  else
    Vec4.clip01 ((lastN 10 userHistory).foldl
      (fun acc m => Vec4.add acc (modeContribution m)) Vec4.zero)

/-- cosine distance `1 - dot/(|u||v| + 1e-8)` from `calculate_style_volatility` -/
noncomputable def cosDist (u v : Vec4) : ℝ :=
  1 - ((Vec4.dot u v : ℚ) : ℝ) / (vecNorm u * vecNorm v + 1 / 100000000)

noncomputable def listMean (l : List ℝ) : ℝ := l.sum / l.length

/-- `np.std` (population standard deviation) -/
noncomputable def listStd (l : List ℝ) : ℝ :=
  Real.sqrt (listMean (l.map (fun x => (x - listMean l) ^ 2)))

/-- `np.clip(x, 0, 1)` on a scalar -/
noncomputable def clip01R (x : ℝ) : ℝ := min (max x 0) 1

/-- the per-user-turn vectors built inside `calculate_style_volatility`:
one vector per `role == 'user'` message among the last 10, each encoded from a
length-1 mini history -/
def styleVectors (userHistory : List Msg) : List Vec4 :=
  ((lastN 10 userHistory).filter (fun m => m.role == "user")).map
    (fun m => encodeUserStyle [m])

/-- cosine distances between consecutive vectors -/
noncomputable def consecDists (vs : List Vec4) : List ℝ :=
  List.zipWith cosDist vs vs.tail

/-- `VectorAnchorSystem.calculate_style_volatility` -/
noncomputable def calculateStyleVolatility (userHistory : List Msg) : ℝ :=
  if userHistory.length < 5 then 1/2
  else
    let vs := styleVectors userHistory
    if vs.length < 2 then 1/2
    else
      let ds := consecDists vs
      if ds.isEmpty then 1/2
      else clip01R (listStd ds * 2)

-- ========================================
-- Dialogue entropy (module-level `calculate_dialogue_entropy`)
-- ========================================

def listMeanQ (l : List ℚ) : ℚ := l.sum / l.length

/-- `np.var` (population variance) -/
def listVarQ (l : List ℚ) : ℚ := listMeanQ (l.map (fun x => (x - listMeanQ l) ^ 2))

/-- number of consecutive mode changes given the previous mode -/
def countChanges : String → List String → ℕ
  | _, [] => 0
  | prev, x :: xs => (if x ≠ prev then 1 else 0) + countChanges x xs

def msgMode (m : Msg) : String := m.botMode.getD "auto"

/-- `calculate_dialogue_entropy` -/
def calculateDialogueEntropy (messages : List Msg) : ℚ :=
  if messages.length < 3 then 0
  else
    let modeChangeCount : ℚ :=
      match messages.map msgMode with
      | [] => 0
      | m0 :: rest => (countChanges m0 rest : ℚ)
    let lengths : List ℚ :=
      (messages.filter (fun m => m.role == "user")).map (fun m => (m.content.length : ℚ))
    let lengthVariance : ℚ :=
      if lengths.isEmpty then 0 else listVarQ lengths / (listMeanQ lengths + 1)
    min 1 ((modeChangeCount / messages.length) * (1/2) + min 1 (lengthVariance / 1000) * (1/2))

-- ========================================
-- Injection configuration and templates
-- ========================================

/-- `InjectionConfig` dataclass; defaults as in `injection_system.py` /
`config.py` (`INJECTION_MAX_TOKENS = 65` etc.). -/
structure InjectionConfig where
  maxTokens : ℤ := 65
  cacheTtl : ℤ := 3600
  maxInjectionsPerDialogue : ℕ := 2
  entropyThreshold : ℚ := 7/10
  latencyBudgetMs : ℤ := 120
deriving DecidableEq, Repr

def baseCore : String := "Ты — Химера."

/-- `CORE_TEMPLATES` dict -/
def coreTemplates (k : String) : Option String :=
  if k = "base" then some baseCore
  else if k = "format_violation" then some "Химера пишет сплошным текстом."
  else if k = "character_drift" then some "Вернись к своей сути."
  else none

/-- `CORE_TEMPLATES.get(violation_type, base)` when a violation is present,
else the base template -/
def coreFor (violation : Option String) : String :=
  match violation with
  | some v => (coreTemplates v).getD baseCore
  | none => baseCore

/-- `MODE_BOOSTERS` dict; `get(mode, "")` followed by a truthiness test is
modelled as an `Option` lookup (all stored strings are nonempty) -/
def modeBoosters (mode : String) : Option String :=
  if mode = "talk" then some "Твое оружие - живая речь."
  else if mode = "expert" then some "Анализ с блеском эрудиции и поэзии."
  else if mode = "writer" then some "Говори изнутри текста."
  else none

/-- `EMOTION_MODS.get(emotion, EMOTION_MODS['neutral'])` -/
def emotionMods (emotion : String) : String :=
  if emotion = "joy" then "Игривость уместна."
  else if emotion = "sadness" then "Чуткость без слащавости."
  else if emotion = "surprise" then "Удивление питает остроумие."
  else "Баланс глубины и легкости."

-- ========================================
-- LTM anchors and micro prompts
-- ========================================

structure StyleMarkers where
  magrealism : Bool
  balkanisms : List String
deriving DecidableEq, Repr

structure InjMemory where
  styleMarkers : Option StyleMarkers
deriving DecidableEq, Repr

/-- keyword collection loop of `get_ltm_anchor` over the top-3 memories -/
def anchorKeywords (ms : List InjMemory) : List String :=
  (ms.take 3).foldl
    (fun acc m =>
      match m.styleMarkers with
      | some mk =>
          acc ++ (if mk.magrealism then ["мистика"] else []) ++ mk.balkanisms.take 1
      | none => acc)
    []

/-- `VectorAnchorSystem.get_ltm_anchor` -/
def getLtmAnchor (ltmMemories : List InjMemory) : Option String :=
  if ltmMemories.isEmpty then none
  else
    let kws := anchorKeywords ltmMemories
    if kws.isEmpty then none
    else some ("Помни: " ++ String.intercalate ", " (kws.take 2) ++ ".")

/-- `VectorAnchorSystem.vector_to_micro_prompt`; tuple order is
(playful, serious, ironic, magical) -/
def vectorToMicroPrompt (v : Vec4) : String :=
  let traits :=
    (if v.a > 7/10 then ["игривость"] else []) ++
    (if v.c > 7/10 then ["ирония"] else []) ++
    (if v.d > 8/10 then ["магреализм"] else [])
  if traits.isEmpty then "Баланс всех качеств."
  else "Акцент: " ++ String.intercalate ", " (traits.take 2) ++ "."

/-- personal anchor chosen in step 2 of `generate_injection`: LTM anchor if
available, otherwise the vector-derived micro prompt -/
def personalAnchorText (hist : List Msg) (ltm : List InjMemory) : String :=
  match (if ltm.isEmpty then none else getLtmAnchor ltm) with
  | some anchor => anchor
  | none => vectorToMicroPrompt (encodeUserStyle hist)

-- ========================================
-- Priority-ordered composition under the token budget
-- ========================================

/-- one guarded append of step 2 of `generate_injection`: the component is
added only when present and when its fixed cost keeps the running total within
the budget -/
def budgetStep (cfg : InjectionConfig) (p : List (ℕ × String) × ℤ)
    (cost : ℤ) (item : Option (ℕ × String)) : List (ℕ × String) × ℤ :=
  match item with
  | some it => if p.2 + cost ≤ cfg.maxTokens then (p.1 ++ [it], p.2 + cost) else p
  | none => p

/-- steps 2 of `generate_injection`: core (priority 100, 15 tokens,
unconditional), mode booster (80, 20), emotion modifier (60, 15), personal
anchor for authorized users (40, 20); returns (components, tokens_used) -/
def composeComponents (cfg : InjectionConfig) (mode emotion : String)
    (hist : List Msg) (violation : Option String) (isAuthorized : Bool)
    (ltm : List InjMemory) : List (ℕ × String) × ℤ :=
  budgetStep cfg
    (budgetStep cfg
      (budgetStep cfg ([(100, coreFor violation)], 15)
        20 ((modeBoosters mode).map (fun mb => (80, mb))))
      15 (some (60, emotionMods emotion)))
    20 (if isAuthorized then some (40, personalAnchorText hist ltm) else none)

/-- fixed token cost of a component, by its priority value -/
def componentCost (priorityVal : ℕ) : ℤ :=
  if priorityVal = 100 then 15
  else if priorityVal = 80 then 20
  else if priorityVal = 60 then 15
  else if priorityVal = 40 then 20
  else 0

def sumCosts (l : List (ℕ × String)) : ℤ := (l.map (fun x => componentCost x.1)).sum

/-- stable descending insertion by priority (Python `list.sort(key=...,
reverse=True)` is stable) -/
def insertDesc (x : ℕ × String) : List (ℕ × String) → List (ℕ × String)
  | [] => [x]
  | y :: ys => if x.1 ≥ y.1 then x :: y :: ys else y :: insertDesc x ys

def sortDesc (l : List (ℕ × String)) : List (ℕ × String) := l.foldr insertDesc []

/-- steps 3-4 of `generate_injection`: sort by priority, join, prefix header -/
def injectionText (components : List (ℕ × String)) : String :=
  "## НАПОМИНАНИЕ ## " ++ String.intercalate " " ((sortDesc components).map Prod.snd)

-- ========================================
-- Cache keys and dynamic TTL
-- ========================================

/-- `_generate_cache_key`: the pre-hash key string `user_id % 100 : mode :
emotion [: violation]`.  The `md5(...).hexdigest()[:16]` step is abstracted
away as a renaming of keys; all claims depend only on key identity. -/
def generateCacheKey (userId : ℕ) (mode emotion : String)
    (violation : Option String) : String :=
  String.intercalate ":"
    ([toString (userId % 100), mode, emotion] ++
      (match violation with | some v => [v] | none => []))

/-- Python `int()` on a real value: truncation toward zero -/
noncomputable def pyInt (x : ℝ) : ℤ := if 0 ≤ x then ⌊x⌋ else ⌈x⌉

/-- step 5 of `generate_injection`:
`int(cache_ttl * (0.3 + 0.7 * (1 - volatility)))` -/
noncomputable def dynamicGenTtl (cfg : InjectionConfig) (vol : ℝ) : ℤ :=
  pyInt ((cfg.cacheTtl : ℝ) * (3/10 + 7/10 * (1 - vol)))

/-- `InjectionCache.cache_injection`:
`int(ttl * (1 + np.log(max(1, user_activity))))` -/
noncomputable def cacheWriteTtl (ttl : ℤ) (userActivity : ℤ) : ℤ :=
  pyInt ((ttl : ℝ) * (1 + Real.log (max 1 (userActivity : ℝ))))

/-- The TTL as the specification literally words it: the composed base TTL
"scaled again by `log(max(1,user_activity))` inside the cache-write
primitive".  Stated from the spec, for comparison with `cacheWriteTtl`. -/
noncomputable def claimedWriteTtl (ttl : ℤ) (userActivity : ℤ) : ℤ :=
  pyInt ((ttl : ℝ) * Real.log (max 1 (userActivity : ℝ)))

-- ========================================
-- Injection system state (Redis) and the main entry points
-- ========================================

/-- Redis-backed state of `AdaptiveInjectionSystem`: per-user injection
counters (`himera:injection_count:*`, absent = 0), the injection cache
(key ↦ (text, ttl)), the `himera:last_emotion:*` markers, and the
`himera:user_activity:*` values (absent modelled as the default 1). -/
structure InjState where
  counts : ℕ → ℕ
  cache : String → Option (String × ℤ)
  lastEmotion : ℕ → Option String
  userActivity : ℕ → ℤ

def getInjectionCount (s : InjState) (u : ℕ) : ℕ := s.counts u

/-- `AdaptiveInjectionSystem.should_inject` -/
def shouldInject (cfg : InjectionConfig) (s : InjState) (u : ℕ)
    (dialogueEntropy : ℚ) : Bool :=
  if getInjectionCount s u ≥ cfg.maxInjectionsPerDialogue then false
  else if dialogueEntropy < cfg.entropyThreshold then false
  else true

/-- trigger 1: the recorded last emotion exists and differs from the current
one (in the source the undecoded Redis bytes are compared with the `str`
argument; the comparison is modelled on the stored string value) -/
def emotionTrigger (s : InjState) (u : ℕ) (emotion : String) : Prop :=
  ∃ le, s.lastEmotion u = some le ∧ le ≠ emotion

/-- trigger 2: high style volatility -/
def volatilityTrigger (hist : List Msg) : Prop :=
  calculateStyleVolatility hist > 2/5

/-- trigger 3: violation present, or entropy of a long enough history above 0.8 -/
def entropyTrigger (hist : List Msg) (violation : Option String) : Prop :=
  violation.isSome = true ∨ (hist.length > 3 ∧ calculateDialogueEntropy hist > 4/5)

def shouldIgnoreCache (s : InjState) (u : ℕ) (emotion : String)
    (hist : List Msg) (violation : Option String) : Prop :=
  emotionTrigger s u emotion ∨ volatilityTrigger hist ∨ entropyTrigger hist violation

/-- the early-return condition of `generate_injection`: a cached value exists,
the user is unauthorized, and no invalidation trigger fired -/
def cacheServed (s : InjState) (u : ℕ) (mode emotion : String)
    (hist : List Msg) (violation : Option String) (isAuthorized : Bool) : Prop :=
  (s.cache (generateCacheKey u mode emotion violation)).isSome = true ∧
  isAuthorized = false ∧
  ¬ shouldIgnoreCache s u emotion hist violation

-- `AdaptiveInjectionSystem.generate_injection` (latency measurement omitted:
-- wall-clock time is not modelled); returns the injection text and the
-- updated Redis state.
open Classical in
noncomputable def generateInjection (cfg : InjectionConfig) (s : InjState)
    (u : ℕ) (mode emotion : String) (hist : List Msg)
    (violation : Option String) (isAuthorized : Bool) (ltm : List InjMemory) :
    String × InjState :=
  if h : cacheServed s u mode emotion hist violation isAuthorized then
    (((s.cache (generateCacheKey u mode emotion violation)).get h.1).1, s)
  else
    let comps := composeComponents cfg mode emotion hist violation isAuthorized ltm
    let text := injectionText comps.1
    let s1 :=
      if isAuthorized then s
      else
        { s with
          cache := fun k =>
            if k = generateCacheKey u mode emotion violation then
              some (text,
                cacheWriteTtl (dynamicGenTtl cfg (calculateStyleVolatility hist))
                  (s.userActivity u))
            else s.cache k,
          lastEmotion := fun v => if v = u then some emotion else s.lastEmotion v }
    let s2 := { s1 with counts := fun v => if v = u then s1.counts v + 1 else s1.counts v }
    (text, s2)

/-- empty Redis state (no counters, no cache, no markers, activity default 1) -/
def zeroInjState : InjState :=
  { counts := fun _ => 0, cache := fun _ => none,
    lastEmotion := fun _ => none, userActivity := fun _ => 1 }

-- ========================================
-- Proactive initiation: configuration defaults (config.py)
-- ========================================

/-- env-derived configuration of `config.py`, with its default values:
`SILENCE_AFTER_IGNORED_COUNT = 2`, `SILENCE_MIN_RESPONSE_LENGTH = 10`,
`INITIATION_MIN_QUALITY_SCORE = 0.6` -/
structure ProConfig where
  silenceAfterIgnoredCount : ℕ := 2
  silenceMinResponseLength : ℚ := 10
  initiationMinQualityScore : ℚ := 3/5
deriving DecidableEq, Repr

-- ========================================
-- String helpers (Python `in`, `.lower()`)
-- ========================================

/-- Python substring test `needle in hay` on character lists -/
def hasSub (needle : List Char) : List Char → Bool
  | [] => needle.isEmpty
  | c :: rest => needle.isPrefixOf (c :: rest) || hasSub needle rest

def strContains (hay needle : String) : Bool := hasSub needle.data hay.data

/-- Python `str.lower()` (modelled characterwise with `Char.toLower`) -/
def pyLower (s : String) : String := ⟨s.data.map Char.toLower⟩

-- ========================================
-- Adaptive silence (`_is_in_silence_mode`)
-- ========================================

def stressEmotions : List String := ["sadness", "anger", "fear"]

/-- `sum(1 for e in recent_emotions if e in stress_emotions)` -/
def stressCount (recentEmotions : List String) : ℕ :=
  recentEmotions.countP (fun e => stressEmotions.contains e)

/-- `ProactiveInitiationEngine._is_in_silence_mode`, as a function of the
three query results it reads: the count of unanswered initiation log entries
of the trailing 7 days, the SQL `AVG` of responded-message lengths over the
trailing 7 days (`none` models NULL; the source guards with Python truthiness,
so a 0 average is also skipped), and the last ≤5 user emotions of the
trailing 24 hours. -/
def isInSilenceMode (pc : ProConfig) (ignoredCount : ℕ) (avgLength : Option ℚ)
    (recentEmotions : List String) : Bool :=
  if ignoredCount ≥ pc.silenceAfterIgnoredCount then true
  else if (match avgLength with
           | some a => decide (a ≠ 0) && decide (a < pc.silenceMinResponseLength)
           | none => false) then true
  else if stressCount recentEmotions ≥ 3 then true
  else false

-- ========================================
-- Continuation mining (`_find_continuation_opportunities`)
-- ========================================

/-- a row of `long_term_memory` (fields used by continuation mining);
timestamps are integer seconds -/
structure LtmMemory where
  userMessage : String
  botResponse : String
  createdAt : ℤ
  importanceScore : Option ℚ
  memoryType : Option String
deriving DecidableEq, Repr

def openPhrasesUser : List String := ["как думаешь", "что если", "может быть", "интересно"]

def openPhrasesBot : List String := ["продолжим", "вернемся к этому", "подумаем об этом"]

/-- the `is_open_ended` test -/
def isOpenEnded (m : LtmMemory) : Bool :=
  strContains m.userMessage "?" ||
  openPhrasesUser.any (fun p => strContains (pyLower m.userMessage) p) ||
  openPhrasesBot.any (fun p => strContains (pyLower m.botResponse) p)

/-- `(datetime.now(utc) - memory['created_at']).days`: floor division of the
second difference (Python `timedelta.days` floors) -/
def daysBetween (now created : ℤ) : ℤ := (now - created).fdiv 86400

/-- the quality computation: `importance/10`, `*0.7` when more than 3 whole
days old, `*1.2` when auto-saved, clipped to 1.0 (`min(1.0, quality)`);
a missing importance score defaults to 5 -/
def contQuality (now : ℤ) (m : LtmMemory) : ℚ :=
  let daysAgo := daysBetween now m.createdAt
  let q0 := (m.importanceScore.getD 5) / 10
  let q1 := if daysAgo > 3 then q0 * (7/10) else q0
  let q2 := if m.memoryType == some "auto_saved" then q1 * (12/10) else q1
  min 1 q2

/-- per-memory candidate result of the loop body: `some quality` when the
memory is open-ended and its quality meets the threshold, `none` otherwise -/
def contCandidateQuality (pc : ProConfig) (now : ℤ) (m : LtmMemory) : Option ℚ :=
  if isOpenEnded m then
    (if contQuality now m ≥ pc.initiationMinQualityScore
     then some (contQuality now m) else none)
  else none

/-- `_find_continuation_opportunities` restricted to the kept qualities
(`memories[:10]`, candidates in order) -/
def findContinuationQualities (pc : ProConfig) (now : ℤ)
    (memories : List LtmMemory) : List ℚ :=
  (memories.take 10).filterMap (contCandidateQuality pc now)

-- ========================================
-- Response sentiment (`_analyze_response_sentiment`)
-- ========================================

def emotionSentiment (e : String) : ℚ :=
  if e = "joy" then 4/5
  else if e = "love" then 9/10
  else if e = "surprise" then 3/5
  else if e = "neutral" then 0
  else if e = "sadness" then -(3/5)
  else if e = "anger" then -(4/5)
  else if e = "fear" then -(7/10)
  else if e = "disgust" then -(9/10)
  else 0

def positiveWords : List String :=
  ["спасибо", "интересно", "здорово", "отлично", "да", "конечно", "хорошо"]

def negativeWords : List String :=
  ["нет", "не надо", "отстань", "устал", "занят", "потом", "неинтересно"]

def analyzeResponseSentiment (message : String) (emotion : Option String) : ℚ :=
  let base : ℚ :=
    match emotion with
    | some e => if e = "" then 0 else emotionSentiment e
    | none => 0
  let textLower := pyLower message
  let posCount := (positiveWords.filter (fun w => strContains textLower w)).length
  let negCount := (negativeWords.filter (fun w => strContains textLower w)).length
  let textSentiment : ℚ := ((posCount : ℚ) - (negCount : ℚ)) * (1/5)
  max (-1) (min 1 (base * (7/10) + textSentiment * (3/10)))

-- ========================================
-- Schedule and log rows (initiation_schedule / initiation_logs)
-- ========================================

inductive IStatus where
  | pending
  | sent
  | cancelled
  | failed
deriving DecidableEq, Repr

structure SchedRow where
  userId : ℕ
  status : IStatus
  scheduledAt : ℤ
  responseReceived : Bool
  sentAt : Option ℤ
  errorMessage : Option String
deriving DecidableEq, Repr

structure LogRow where
  logId : ℕ
  userId : ℕ
  schedId : Option ℕ
  messageContent : String
  createdAt : ℤ
  responded : Bool
  response : Option String
  responseEmotion : Option String
  responseSentiment : Option ℚ
  responseLength : Option ℕ
  responseTimeMinutes : Option ℤ
deriving DecidableEq, Repr

/-- the two tables the engine mutates; `initiation_schedule` rows are keyed
by their primary key id -/
structure ProDB where
  sched : List (ℕ × SchedRow)
  logs : List LogRow
deriving DecidableEq, Repr

def statusOf (db : ProDB) (id : ℕ) : Option IStatus :=
  (db.sched.lookup id).map (fun r => r.status)

/-- a per-key `UPDATE` over the schedule table -/
def updSched (s : List (ℕ × SchedRow)) (f : ℕ → SchedRow → SchedRow) :
    List (ℕ × SchedRow) :=
  s.map (fun kr => (kr.1, f kr.1 kr.2))

/-- serial primary key for a fresh `initiation_logs` row -/
def freshLogId (logs : List LogRow) : ℕ := (logs.map (fun l => l.logId)).foldr max 0 + 1

/-- `_mark_initiation_sent`: select the row by id (early return when absent),
then `UPDATE ... SET status='sent', sent_at=NOW() WHERE id=%s` — with no
status guard — and insert an `initiation_logs` row (`user_responded` takes the
table default FALSE).  The `add_message_to_history` side effect is outside the
two modelled tables. -/
def markSent (db : ProDB) (id : ℕ) (message : String) (now : ℤ) : ProDB :=
  match db.sched.lookup id with
  | none => db
  | some row =>
      { sched := updSched db.sched
          (fun k r => if k = id then { r with status := .sent, sentAt := some now } else r),
        logs := db.logs ++
          [{ logId := freshLogId db.logs, userId := row.userId, schedId := some id,
             messageContent := message,
             createdAt := now, responded := false, response := none,
             responseEmotion := none, responseSentiment := none,
             responseLength := none, responseTimeMinutes := none }] }

/-- apply a per-key schedule `UPDATE`, leaving the logs untouched -/
def mapSched (db : ProDB) (f : ℕ → SchedRow → SchedRow) : ProDB :=
  { sched := updSched db.sched f, logs := db.logs }

/-- `_mark_initiation_failed`: `UPDATE ... SET status='failed',
error_message=%s WHERE id=%s` — again with no status guard -/
def markFailed (db : ProDB) (id : ℕ) (err : String) : ProDB :=
  mapSched db
    (fun k r => if k = id then { r with status := .failed, errorMessage := some err } else r)

/-- `cron_jobs.cleanup_old_initiations`: cancel pending rows scheduled more
than 48 hours ago (the log deletion of rows older than 30 days is not
modelled; it does not touch statuses) -/
def cancelOld (db : ProDB) (now : ℤ) : ProDB :=
  mapSched db
    (fun _ r =>
      if r.status = .pending ∧ r.scheduledAt < now - 172800
      then { r with status := .cancelled } else r)

/-- `proactive_commands.disable_proactivity`: cancel the user's pending rows -/
def cancelForUser (db : ProDB) (uid : ℕ) : ProDB :=
  mapSched db
    (fun _ r =>
      if r.status = .pending ∧ r.userId = uid
      then { r with status := .cancelled } else r)

/-- `proactive_commands.set_proactivity_pause`: cancel the user's pending rows
scheduled inside the pause window -/
def cancelForUserUntil (db : ProDB) (uid : ℕ) (pauseUntil : ℤ) : ProDB :=
  mapSched db
    (fun _ r =>
      if r.status = .pending ∧ r.userId = uid ∧ r.scheduledAt ≤ pauseUntil
      then { r with status := .cancelled } else r)

/-- stable ascending insertion by `scheduled_at` (`ORDER BY scheduled_at`) -/
def insertAsc (x : ℕ × SchedRow) : List (ℕ × SchedRow) → List (ℕ × SchedRow)
  | [] => [x]
  | y :: ys => if x.2.scheduledAt ≤ y.2.scheduledAt then x :: y :: ys else y :: insertAsc x ys

def sortSched (l : List (ℕ × SchedRow)) : List (ℕ × SchedRow) := l.foldr insertAsc []

/-- `_get_pending_initiations`: pending rows due by `now`, ordered by
`scheduled_at`, limit 50; returns their ids -/
def pendingFetch (db : ProDB) (now : ℤ) : List ℕ :=
  ((sortSched (db.sched.filter
      (fun kr => kr.2.status == IStatus.pending && decide (kr.2.scheduledAt ≤ now)))).take 50).map
    Prod.fst

/-- `send_scheduled_initiations`: for each fetched pending initiation, mark it
sent on delivery success and failed otherwise.  `outcome` is the oracle for
`_send_initiation_message` (and exception-free generation); `msg` the oracle
for the generated message text. -/
def runSweep (db : ProDB) (now : ℤ) (outcome : ℕ → Bool) (msg : ℕ → String) : ProDB :=
  (pendingFetch db now).foldl
    (fun d id =>
      if outcome id then markSent d id (msg id) now
      else markFailed d id "Failed to send via Telegram")
    db

/-- `ORDER BY created_at DESC LIMIT 1` over a filtered log list: the entry
with the maximal `created_at` (first such entry on ties) -/
def pickLatest (l : List LogRow) : Option LogRow :=
  l.foldl
    (fun acc e =>
      match acc with
      | none => some e
      | some b => if b.createdAt < e.createdAt then some e else some b)
    none

/-- Python `int()` on a rational (truncation toward zero) -/
def pyIntQ (q : ℚ) : ℤ := if 0 ≤ q then ⌊q⌋ else ⌈q⌉

/-- `ProactiveInitiationEngine.process_user_response`: find the latest
unresponded log entry of the user within 24 hours; if none, return false with
no change; otherwise record response fields (response time in whole minutes)
and mark `user_response_received` on the linked schedule row. -/
def processUserResponse (db : ProDB) (uid : ℕ) (now : ℤ) (message : String)
    (emotion : Option String) : Bool × ProDB :=
  let matching := db.logs.filter
    (fun l => l.userId == uid && !l.responded && decide (now - 86400 < l.createdAt))
  match pickLatest matching with
  | none => (false, db)
  | some e =>
      let respTime : ℤ := pyIntQ (((now - e.createdAt : ℤ) : ℚ) / 60)
      let sentiment := analyzeResponseSentiment message emotion
      let logs2 := db.logs.map
        (fun l =>
          if l.logId = e.logId then
            { l with
              response := some (message.take 1000),
              responseEmotion := emotion,
              responseSentiment := some sentiment,
              responseLength := some message.length,
              responded := true,
              responseTimeMinutes := some respTime }
          else l)
      let sched2 :=
        match e.schedId with
        | some sid => updSched db.sched
            (fun k r => if k = sid then { r with responseReceived := true } else r)
        | none => db.sched
      (true, { sched := sched2, logs := logs2 })

-- ========================================
-- Engine operations and status evolution
-- ========================================

/-- the operations acting on the initiation schedule: the dispatch sweep,
the two raw mark updates, response correlation, and the cancellation paths -/
inductive EngineOp where
  | sweep (now : ℤ) (outcome : ℕ → Bool) (msg : ℕ → String)
  | markSentOp (id : ℕ) (message : String) (now : ℤ)
  | markFailedOp (id : ℕ) (err : String)
  | cancelOldOp (now : ℤ)
  | cancelUserOp (uid : ℕ)
  | cancelUserUntilOp (uid : ℕ) (pauseUntil : ℤ)
  | respondOp (uid : ℕ) (now : ℤ) (message : String) (emotion : Option String)

def applyOp (db : ProDB) : EngineOp → ProDB
  | .sweep now outcome msg => runSweep db now outcome msg
  | .markSentOp id message now => markSent db id message now
  | .markFailedOp id err => markFailed db id err
  | .cancelOldOp now => cancelOld db now
  | .cancelUserOp uid => cancelForUser db uid
  | .cancelUserUntilOp uid pauseUntil => cancelForUserUntil db uid pauseUntil
  | .respondOp uid now message emotion => (processUserResponse db uid now message emotion).2

def runOps (db : ProDB) (ops : List EngineOp) : ProDB := ops.foldl applyOp db

def IsTerminal (t : IStatus) : Prop := t = .sent ∨ t = .cancelled ∨ t = .failed

/-- the raw mark updates carry no status guard in their SQL; a sequence is
guarded when each of them is only applied to a row that is pending (or
absent) at the moment of the update — which the dispatch loop ensures by
drawing ids from the pending query -/
def GuardOk (db : ProDB) : EngineOp → Prop
  | .markSentOp id _ _ => ∀ st, statusOf db id = some st → st = .pending
  | .markFailedOp id _ => ∀ st, statusOf db id = some st → st = .pending
  | _ => True

def Guarded : ProDB → List EngineOp → Prop
  | _, [] => True
  | db, op :: ops => GuardOk db op ∧ Guarded (applyOp db op) ops

/-- primary-key uniqueness of `initiation_schedule.id` -/
def KeysNodup (db : ProDB) : Prop := (db.sched.map Prod.fst).Nodup

/-- a row's status either stayed unchanged or moved from pending to a
terminal status -/
def StatusEvolves (db1 db2 : ProDB) (id : ℕ) : Prop :=
  statusOf db2 id = statusOf db1 id ∨
  (statusOf db1 id = some .pending ∧
    ∃ t, statusOf db2 id = some t ∧ IsTerminal t)

-- ========================================
-- Scheduler eligibility (`_get_eligible_users`)
-- ========================================

/-- one row of `user_proactivity_settings` joined with `users` on `user_id`
(the join is modelled as a merged record) -/
structure ProUserRow where
  userId : ℕ
  isEnabled : Bool
  pausedUntil : Option ℤ
  isAuthorized : Bool
  abTestGroup : String
deriving DecidableEq, Repr

/-- the WHERE clause of `_get_eligible_users` -/
def eligibleOk (now : ℤ) (u : ProUserRow) : Bool :=
  u.isEnabled &&
  (match u.pausedUntil with
   | none => true
   | some t => decide (t < now)) &&
  u.isAuthorized &&
  (u.abTestGroup == "A")

/-- `_get_eligible_users`: ids of the rows passing the WHERE clause -/
def getEligibleUsers (rows : List ProUserRow) (now : ℤ) : List ℕ :=
  (rows.filter (eligibleOk now)).map (fun u => u.userId)

-- ========================================
-- Concrete instances used by the closed check theorems
-- ========================================

def msgTalk : Msg := { role := "user", botMode := some "talk", content := "пример" }

def histTalk5 : List Msg := List.replicate 5 msgTalk

/-- the spec scenario memory: open-ended, importance 8, not auto-saved -/
def memClaim : LtmMemory :=
  { userMessage := "Как пройдет?", botResponse := "Хм", createdAt := 0,
    importanceScore := some 8, memoryType := none }

def cacheKeyTJ : String := generateCacheKey 1 "talk" "joy" none

/-- a Redis state holding a cached injection for user 1 / talk / joy and
no last-emotion marker -/
def hitInjState : InjState :=
  { counts := fun _ => 0,
    cache := fun k => if k = cacheKeyTJ then some ("cached", 100) else none,
    lastEmotion := fun _ => none, userActivity := fun _ => 1 }

def quotaInjState : InjState := { zeroInjState with counts := fun _ => 2 }

def logC8 : LogRow :=
  { logId := 1, userId := 7, schedId := some 3, messageContent := "hi",
    createdAt := 1000, responded := false, response := none, responseEmotion := none,
    responseSentiment := none, responseLength := none, responseTimeMinutes := none }

def rowC8 : SchedRow :=
  { userId := 7, status := .sent, scheduledAt := 900, responseReceived := false,
    sentAt := some 1000, errorMessage := none }

def dbC8 : ProDB := { sched := [(3, rowC8)], logs := [logC8] }

def rowPend : SchedRow :=
  { userId := 7, status := .pending, scheduledAt := 0, responseReceived := false,
    sentAt := none, errorMessage := none }

def dbPend : ProDB := { sched := [(0, rowPend)], logs := [] }

-- ========================================
-- Theorems
-- ========================================

/-- Claim C5: `should_inject` returns false whenever the persistent
per-dialogue counter has reached the configured maximum (regardless of
entropy), and also whenever the counter is below the maximum but the dialogue
entropy is below the configured threshold. -/
theorem should_inject_quota_entropy (cfg : InjectionConfig) (s : InjState)
    (u : ℕ) (e : ℚ)
    (h : cfg.maxInjectionsPerDialogue ≤ getInjectionCount s u ∨
      e < cfg.entropyThreshold) :
    shouldInject cfg s u e = false := by
  unfold shouldInject
  rcases h with h | h
  · rw [if_pos h]
  · by_cases h2 : getInjectionCount s u ≥ cfg.maxInjectionsPerDialogue
    · rw [if_pos h2]
    · rw [if_neg h2, if_pos h]

/-- Witness for C5: counter 2 = max 2, entropy 0.95 gives false; and counter
0 < max with entropy 0.5 below threshold 0.7 gives false. -/
theorem should_inject_quota_entropy_check :
    shouldInject {} quotaInjState 1 (95/100) = false ∧
    shouldInject {} zeroInjState 1 (1/2) = false :=
  ⟨should_inject_quota_entropy {} quotaInjState 1 (95/100) (Or.inl (by decide)),
   should_inject_quota_entropy {} zeroInjState 1 (1/2)
     (Or.inr (show (1/2 : ℚ) < 7/10 by norm_num))⟩

/-- Claim C4: when the average responded-message length is not below the
minimum and fewer than 3 of the recent emotions are stress emotions, the
silence-mode check is false at an unanswered count of
`SILENCE_AFTER_IGNORED_COUNT - 1` and true at `SILENCE_AFTER_IGNORED_COUNT`. -/
theorem silence_mode_boundary (pc : ProConfig) (avg : Option ℚ)
    (emos : List String)
    (h1 : 1 ≤ pc.silenceAfterIgnoredCount)
    (h2 : ∀ a, avg = some a → ¬ a < pc.silenceMinResponseLength)
    (h3 : stressCount emos < 3) :
    isInSilenceMode pc (pc.silenceAfterIgnoredCount - 1) avg emos = false ∧
    isInSilenceMode pc pc.silenceAfterIgnoredCount avg emos = true := by
  constructor
  · cases avg with
    | none =>
        unfold isInSilenceMode
        rw [if_neg (by omega)]
        simp only [Bool.false_eq_true, if_false]
        rw [if_neg (by omega)]
    | some a =>
        have ha : decide (a < pc.silenceMinResponseLength) = false :=
          decide_eq_false (h2 a rfl)
        unfold isInSilenceMode
        rw [if_neg (by omega)]
        simp only [ha, Bool.and_false, Bool.false_eq_true, if_false]
        rw [if_neg (by omega)]
  · unfold isInSilenceMode
    rw [if_pos (le_refl _)]

/-- Witness for C4: with the default threshold 2, average length 12 and no
stress emotions, a count of 1 does not trigger silence and a count of 2
does. -/
theorem silence_mode_boundary_check :
    isInSilenceMode {} 1 (some 12) [] = false ∧
    isInSilenceMode {} 2 (some 12) [] = true := by
  have h := silence_mode_boundary {} (some 12) [] (by decide)
    (by intro a ha; cases ha; norm_num) (by decide)
  exact h

/-- Claim C7: for an open-ended memory, the continuation candidate quality is
`importance/10`, times 0.7 when the memory is more than 3 (whole) days old,
times 1.2 when auto-saved, clipped to 1, and the candidate is kept exactly
when that quality meets the minimum quality threshold. -/
theorem continuation_quality_formula (pc : ProConfig) (now : ℤ) (m : LtmMemory)
    (h : isOpenEnded m = true) :
    contCandidateQuality pc now m =
      (if contQuality now m ≥ pc.initiationMinQualityScore
       then some (contQuality now m) else none) ∧
    contQuality now m =
      min 1 ((m.importanceScore.getD 5) / 10 *
        (if daysBetween now m.createdAt > 3 then 7/10 else 1) *
        (if m.memoryType == some "auto_saved" then 12/10 else 1)) := by
  constructor
  · unfold contCandidateQuality
    rw [if_pos h]
  · unfold contQuality
    by_cases hd : daysBetween now m.createdAt > 3
    · by_cases hm : (m.memoryType == some "auto_saved") = true
      · simp only [if_pos hd, hm, if_true]
      · simp only [if_pos hd, hm, Bool.false_eq_true, if_false]
        try (congr 1; ring)
    · by_cases hm : (m.memoryType == some "auto_saved") = true
      · simp only [if_neg hd, hm, if_true]
        try (congr 1; ring)
      · simp only [if_neg hd, hm, Bool.false_eq_true, if_false]
        try (congr 1; ring)

/-- Witness for C7: the spec scenario — a 5-day-old memory of importance 8 is
open-ended, has quality 0.56 = 14/25, and is discarded under the default
threshold 0.6. -/
theorem continuation_quality_formula_check :
    contQuality (5 * 86400) memClaim = 14/25 ∧
    contCandidateQuality {} (5 * 86400) memClaim = none ∧
    (14/25 : ℚ) < 3/5 := by
  have h := continuation_quality_formula {} (5 * 86400) memClaim (by decide)
  have hd : daysBetween (5 * 86400) memClaim.createdAt > 3 := by decide
  have hm : (memClaim.memoryType == some "auto_saved") = false := by decide
  have hq : contQuality (5 * 86400) memClaim = 14/25 := by
    rw [h.2, if_pos hd]
    simp only [hm, Bool.false_eq_true, if_false, memClaim, Option.getD_some]
    rw [min_eq_right (by norm_num)]
    norm_num
  refine ⟨hq, ?_, by norm_num⟩
  rw [h.1, hq, if_neg (show ¬ (14/25 : ℚ) ≥ 3/5 by norm_num)]

/-- Claim C10: a user id is returned by the eligible-user query exactly when
some settings row for it is enabled, unpaused (or the pause expired), belongs
to an authorized account, and sits in A/B test group A; in particular
unauthorized users and users of other A/B groups are never eligible. -/
theorem eligible_users_membership (rows : List ProUserRow) (now : ℤ) (uid : ℕ) :
    uid ∈ getEligibleUsers rows now ↔
    ∃ u ∈ rows, u.userId = uid ∧ u.isEnabled = true ∧
      (u.pausedUntil = none ∨ ∃ t, u.pausedUntil = some t ∧ t < now) ∧
      u.isAuthorized = true ∧ u.abTestGroup = "A" := by
  unfold getEligibleUsers
  simp only [List.mem_map, List.mem_filter]
  constructor
  · rintro ⟨u, ⟨hu, hcond⟩, rfl⟩
    refine ⟨u, hu, rfl, ?_⟩
    unfold eligibleOk at hcond
    cases hpu : u.pausedUntil with
    | none => simp_all
    | some t => simp_all
  · rintro ⟨u, hu, rfl, h1, h2, h3, h4⟩
    refine ⟨u, ⟨hu, ?_⟩, rfl⟩
    unfold eligibleOk
    rcases h2 with h2 | ⟨t, h2, hlt⟩
    · simp_all
    · simp_all

/-- a budget-guarded append keeps the running total within the budget -/
theorem budgetStep_tokens_le (cfg : InjectionConfig) (p : List (ℕ × String) × ℤ)
    (cost : ℤ) (item : Option (ℕ × String)) (hp : p.2 ≤ cfg.maxTokens) :
    (budgetStep cfg p cost item).2 ≤ cfg.maxTokens := by
  unfold budgetStep
  cases item with
  | none => exact hp
  | some it =>
      dsimp only
      split
      · next hcond => exact hcond
      · exact hp

/-- a budget-guarded append preserves "sum of component costs = running total"
when the appended component's cost is the declared one -/
theorem budgetStep_sum (cfg : InjectionConfig) (p : List (ℕ × String) × ℤ)
    (cost : ℤ) (item : Option (ℕ × String)) (hs : sumCosts p.1 = p.2)
    (hc : ∀ it, item = some it → componentCost it.1 = cost) :
    sumCosts (budgetStep cfg p cost item).1 = (budgetStep cfg p cost item).2 := by
  unfold budgetStep
  cases item with
  | none => exact hs
  | some it =>
      dsimp only
      split
      · unfold sumCosts at hs ⊢
        rw [List.map_append, List.sum_append, hs]
        simp only [List.map_cons, List.map_nil, List.sum_cons, List.sum_nil, add_zero]
        rw [hc it rfl]
      · exact hs

/-- Claim C2: for every mode, emotion, authorization flag, violation type,
history and LTM input, the sum of the fixed token costs of the components
included by `generate_injection` (core 15, mode 20, emotion 15, personal
anchor 20, admitted in strict priority order) stays within the configured
max-token budget, provided the budget covers the unconditionally included
core cost 15 (the configured default is 65). -/
theorem injection_tokens_within_budget (cfg : InjectionConfig)
    (mode emotion : String) (hist : List Msg) (violation : Option String)
    (isAuthorized : Bool) (ltm : List InjMemory)
    (hbudget : 15 ≤ cfg.maxTokens) :
    sumCosts (composeComponents cfg mode emotion hist violation isAuthorized ltm).1 ≤
      cfg.maxTokens ∧
    sumCosts (composeComponents cfg mode emotion hist violation isAuthorized ltm).1 =
      (composeComponents cfg mode emotion hist violation isAuthorized ltm).2 := by
  have hs0 : sumCosts [((100 : ℕ), coreFor violation)] = 15 := by
    simp [sumCosts, componentCost]
  have hmode : ∀ it, (modeBoosters mode).map (fun mb => ((80 : ℕ), mb)) = some it →
      componentCost it.1 = 20 := by
    intro it hit
    cases hmb : modeBoosters mode with
    | none => rw [hmb] at hit; cases hit
    | some mb =>
        rw [hmb] at hit
        cases hit
        rfl
  have hemo : ∀ it, (some ((60 : ℕ), emotionMods emotion)) = some it →
      componentCost it.1 = 15 := by
    intro it hit
    cases hit
    rfl
  have hpers : ∀ it,
      (if isAuthorized then some ((40 : ℕ), personalAnchorText hist ltm) else none) = some it →
      componentCost it.1 = 20 := by
    intro it hit
    cases isAuthorized with
    | false => simp at hit
    | true =>
        simp only [if_true] at hit
        cases hit
        rfl
  have htok : (composeComponents cfg mode emotion hist violation isAuthorized ltm).2 ≤
      cfg.maxTokens := by
    unfold composeComponents
    apply budgetStep_tokens_le
    apply budgetStep_tokens_le
    apply budgetStep_tokens_le
    exact hbudget
  have hsum : sumCosts (composeComponents cfg mode emotion hist violation isAuthorized ltm).1 =
      (composeComponents cfg mode emotion hist violation isAuthorized ltm).2 := by
    unfold composeComponents
    apply budgetStep_sum
    · apply budgetStep_sum
      · apply budgetStep_sum
        · exact hs0
        · exact hmode
      · exact hemo
    · exact hpers
  exact ⟨hsum ▸ htok, hsum⟩

/-- Witness for C2: with the default configuration (budget 65) and a concrete
call, the included components cost 50 ≤ 65. -/
theorem injection_tokens_within_budget_check :
    sumCosts (composeComponents {} "talk" "joy" [] none false []).1 = 50 ∧
    sumCosts (composeComponents {} "talk" "joy" [] none false []).1 ≤
      ({} : InjectionConfig).maxTokens :=
  ⟨by decide,
   (injection_tokens_within_budget {} "talk" "joy" [] none false [] (by decide)).1⟩

-- ========================================
-- Lookup lemmas for the schedule table
-- ========================================

theorem lookup_updSched (s : List (ℕ × SchedRow)) (f : ℕ → SchedRow → SchedRow)
    (j : ℕ) : List.lookup j (updSched s f) = (List.lookup j s).map (f j) := by
  induction s with
  | nil => rfl
  | cons kr t ih =>
      obtain ⟨k, r⟩ := kr
      unfold updSched at ih ⊢
      by_cases hk : j = k
      · subst hk
        simp [List.lookup]
      · have hbeq : (j == k) = false := by simpa using hk
        simp [List.lookup, hbeq]
        simpa using ih

theorem keys_updSched (s : List (ℕ × SchedRow)) (f : ℕ → SchedRow → SchedRow) :
    (updSched s f).map Prod.fst = s.map Prod.fst := by
  induction s with
  | nil => rfl
  | cons kr t ih =>
      unfold updSched at ih ⊢
      simp [ih]

theorem lookup_eq_of_mem_of_nodup (l : List (ℕ × SchedRow)) (k : ℕ) (r : SchedRow)
    (hnd : (l.map Prod.fst).Nodup) (hm : (k, r) ∈ l) : List.lookup k l = some r := by
  induction l with
  | nil => cases hm
  | cons kr t ih =>
      obtain ⟨k0, r0⟩ := kr
      rcases List.mem_cons.mp hm with heq | hmt
      · cases heq
        simp [List.lookup]
      · rw [List.map_cons, List.nodup_cons] at hnd
        have hk : k ≠ k0 := by
          intro hkk
          subst hkk
          exact hnd.1 (List.mem_map.mpr ⟨(k, r), hmt, rfl⟩)
        have hbeq : (k == k0) = false := by simpa using hk
        simp [List.lookup, hbeq]
        exact ih hnd.2 hmt

-- ========================================
-- Status characterizations of the engine operations
-- ========================================

theorem statusOf_markSent (db : ProDB) (id0 : ℕ) (m : String) (now : ℤ) (j : ℕ) :
    statusOf (markSent db id0 m now) j =
      if j = id0 then (statusOf db id0).map (fun _ => IStatus.sent)
      else statusOf db j := by
  unfold markSent
  cases hl : db.sched.lookup id0 with
  | none =>
      unfold statusOf
      by_cases hj : j = id0
      · subst hj
        rw [if_pos rfl, hl]
        rfl
      · rw [if_neg hj]
  | some row =>
      unfold statusOf
      dsimp only
      rw [lookup_updSched]
      by_cases hj : j = id0
      · subst hj
        rw [if_pos rfl, hl]
        cases hl2 : db.sched.lookup j with
        | none => rw [hl2] at hl; cases hl
        | some row2 => simp
      · rw [if_neg hj]
        cases db.sched.lookup j with
        | none => rfl
        | some r2 => simp [hj]

theorem statusOf_markFailed (db : ProDB) (id0 : ℕ) (err : String) (j : ℕ) :
    statusOf (markFailed db id0 err) j =
      if j = id0 then (statusOf db id0).map (fun _ => IStatus.failed)
      else statusOf db j := by
  unfold markFailed mapSched statusOf
  dsimp only
  rw [lookup_updSched]
  by_cases hj : j = id0
  · subst hj
    rw [if_pos rfl]
    cases db.sched.lookup j with
    | none => rfl
    | some r2 => simp
  · rw [if_neg hj]
    cases db.sched.lookup j with
    | none => rfl
    | some r2 => simp [hj]

theorem statusOf_mapSched_cond (db : ProDB) (p : SchedRow → Prop)
    [DecidablePred p] (j : ℕ) :
    statusOf (mapSched db (fun _ r => if p r then { r with status := .cancelled } else r)) j =
      (db.sched.lookup j).map
        (fun r => if p r then IStatus.cancelled else r.status) := by
  unfold mapSched statusOf
  dsimp only
  rw [lookup_updSched]
  cases db.sched.lookup j with
  | none => rfl
  | some r =>
      by_cases hp : p r
      · simp [hp]
      · simp [hp]

theorem statusOf_processUserResponse (db : ProDB) (uid : ℕ) (now : ℤ)
    (message : String) (emotion : Option String) (j : ℕ) :
    statusOf (processUserResponse db uid now message emotion).2 j = statusOf db j := by
  simp only [processUserResponse]
  cases hp : pickLatest (db.logs.filter
      (fun l => l.userId == uid && !l.responded && decide (now - 86400 < l.createdAt))) with
  | none => rfl
  | some e =>
      dsimp only
      cases hs : e.schedId with
      | none => rfl
      | some sid =>
          unfold statusOf
          dsimp only
          rw [lookup_updSched]
          cases db.sched.lookup j with
          | none => rfl
          | some r =>
              by_cases hj : j = sid
              · simp [hj]
              · simp [hj]

-- ========================================
-- Status evolution lemmas
-- ========================================

theorem statusEvolves_of_eq {db1 db2 : ProDB} {j : ℕ}
    (h : statusOf db2 j = statusOf db1 j) : StatusEvolves db1 db2 j := Or.inl h

theorem statusEvolves_trans {db1 db2 db3 : ProDB} {j : ℕ}
    (h12 : StatusEvolves db1 db2 j) (h23 : StatusEvolves db2 db3 j) :
    StatusEvolves db1 db3 j := by
  rcases h12 with h12 | ⟨hp1, t, ht, hterm⟩
  · rcases h23 with h23 | ⟨hp2, t2, ht2, hterm2⟩
    · exact Or.inl (h23.trans h12)
    · right
      exact ⟨h12 ▸ hp2, t2, ht2, hterm2⟩
  · rcases h23 with h23 | ⟨hp2, t2, ht2, hterm2⟩
    · right
      exact ⟨hp1, t, h23.trans ht, hterm⟩
    · rw [ht] at hp2
      have : t = .pending := Option.some.inj hp2
      subst this
      rcases hterm with h | h | h <;> cases h

theorem step_markSent (db : ProDB) (id0 : ℕ) (m : String) (now : ℤ)
    (hguard : ∀ st, statusOf db id0 = some st → st = .pending) (j : ℕ) :
    StatusEvolves db (markSent db id0 m now) j := by
  by_cases hj : j = id0
  · subst hj
    cases hst : statusOf db j with
    | none =>
        left
        rw [statusOf_markSent, if_pos rfl, hst]
        rfl
    | some st =>
        right
        have hpend := hguard st hst
        subst hpend
        refine ⟨hst, .sent, ?_, Or.inl rfl⟩
        rw [statusOf_markSent, if_pos rfl, hst]
        rfl
  · left
    rw [statusOf_markSent, if_neg hj]

theorem step_markFailed (db : ProDB) (id0 : ℕ) (err : String)
    (hguard : ∀ st, statusOf db id0 = some st → st = .pending) (j : ℕ) :
    StatusEvolves db (markFailed db id0 err) j := by
  by_cases hj : j = id0
  · subst hj
    cases hst : statusOf db j with
    | none =>
        left
        rw [statusOf_markFailed, if_pos rfl, hst]
        rfl
    | some st =>
        right
        have hpend := hguard st hst
        subst hpend
        refine ⟨hst, .failed, ?_, Or.inr (Or.inr rfl)⟩
        rw [statusOf_markFailed, if_pos rfl, hst]
        rfl
  · left
    rw [statusOf_markFailed, if_neg hj]

theorem step_cancelWith (db : ProDB) (p : SchedRow → Prop) [DecidablePred p]
    (hp : ∀ r, p r → r.status = .pending) (j : ℕ) :
    StatusEvolves db
      (mapSched db (fun _ r => if p r then { r with status := .cancelled } else r)) j := by
  have hchar := statusOf_mapSched_cond db p j
  cases hl : db.sched.lookup j with
  | none =>
      left
      rw [hchar, hl]
      unfold statusOf
      rw [hl]
      rfl
  | some r =>
      by_cases hpr : p r
      · right
        have hpend := hp r hpr
        constructor
        · unfold statusOf
          rw [hl]
          simp [hpend]
        · refine ⟨.cancelled, ?_, Or.inr (Or.inl rfl)⟩
          rw [hchar, hl]
          simp [hpr]
      · left
        rw [hchar, hl]
        unfold statusOf
        rw [hl]
        simp [hpr]

-- key preservation of the operations

theorem keys_markSent (db : ProDB) (id0 : ℕ) (m : String) (now : ℤ) :
    (markSent db id0 m now).sched.map Prod.fst = db.sched.map Prod.fst := by
  unfold markSent
  cases db.sched.lookup id0 with
  | none => rfl
  | some row =>
      dsimp only
      exact keys_updSched _ _

theorem keys_markFailed (db : ProDB) (id0 : ℕ) (err : String) :
    (markFailed db id0 err).sched.map Prod.fst = db.sched.map Prod.fst := by
  unfold markFailed mapSched
  dsimp only
  exact keys_updSched _ _

theorem keys_mapSched (db : ProDB) (f : ℕ → SchedRow → SchedRow) :
    (mapSched db f).sched.map Prod.fst = db.sched.map Prod.fst := by
  unfold mapSched
  dsimp only
  exact keys_updSched _ _

theorem keys_processUserResponse (db : ProDB) (uid : ℕ) (now : ℤ)
    (message : String) (emotion : Option String) :
    (processUserResponse db uid now message emotion).2.sched.map Prod.fst =
      db.sched.map Prod.fst := by
  simp only [processUserResponse]
  cases pickLatest (db.logs.filter
      (fun l => l.userId == uid && !l.responded && decide (now - 86400 < l.createdAt))) with
  | none => rfl
  | some e =>
      dsimp only
      cases e.schedId with
      | none => rfl
      | some sid => exact keys_updSched _ _

theorem keys_foldMarks (now : ℤ) (outcome : ℕ → Bool) (msg : ℕ → String)
    (ids : List ℕ) : ∀ db : ProDB,
    ((ids.foldl (fun d id =>
        if outcome id then markSent d id (msg id) now
        else markFailed d id "Failed to send via Telegram") db).sched.map Prod.fst) =
      db.sched.map Prod.fst := by
  induction ids with
  | nil => intro db; rfl
  | cons i rest ih =>
      intro db
      rw [List.foldl_cons]
      by_cases ho : outcome i
      · rw [if_pos ho, ih, keys_markSent]
      · rw [if_neg ho, ih, keys_markFailed]

theorem keys_applyOp (db : ProDB) (op : EngineOp) :
    (applyOp db op).sched.map Prod.fst = db.sched.map Prod.fst := by
  cases op with
  | sweep now outcome msg => exact keys_foldMarks now outcome msg _ db
  | markSentOp id m now => exact keys_markSent db id m now
  | markFailedOp id err => exact keys_markFailed db id err
  | cancelOldOp now => exact keys_mapSched db _
  | cancelUserOp uid => exact keys_mapSched db _
  | cancelUserUntilOp uid pauseUntil => exact keys_mapSched db _
  | respondOp uid now message emotion => exact keys_processUserResponse db uid now message emotion

-- sorting lemmas for the pending query

theorem mem_insertAsc (x y : ℕ × SchedRow) (l : List (ℕ × SchedRow)) :
    y ∈ insertAsc x l ↔ y = x ∨ y ∈ l := by
  induction l with
  | nil => simp [insertAsc]
  | cons z t ih =>
      unfold insertAsc
      by_cases hc : x.2.scheduledAt ≤ z.2.scheduledAt
      · rw [if_pos hc]
        simp [or_comm, or_assoc, or_left_comm]
      · rw [if_neg hc]
        simp only [List.mem_cons, ih]
        tauto

theorem insertAsc_perm (x : ℕ × SchedRow) (l : List (ℕ × SchedRow)) :
    (insertAsc x l).Perm (x :: l) := by
  induction l with
  | nil => simp [insertAsc]
  | cons z t ih =>
      unfold insertAsc
      by_cases hc : x.2.scheduledAt ≤ z.2.scheduledAt
      · rw [if_pos hc]
      · rw [if_neg hc]
        exact (List.Perm.cons z ih).trans (List.Perm.swap x z t)

theorem sortSched_perm (l : List (ℕ × SchedRow)) : (sortSched l).Perm l := by
  induction l with
  | nil => rfl
  | cons z t ih =>
      unfold sortSched at ih ⊢
      rw [List.foldr_cons]
      exact (insertAsc_perm z _).trans (List.Perm.cons z ih)

theorem pendingFetch_pending (db : ProDB) (now : ℤ) (hnd : KeysNodup db) :
    ∀ i ∈ pendingFetch db now, ∀ st, statusOf db i = some st → st = .pending := by
  intro i hi st hst
  unfold pendingFetch at hi
  rcases List.mem_map.mp hi with ⟨kr, hkr, hfst⟩
  have hkr2 : kr ∈ sortSched (db.sched.filter
      (fun kr => kr.2.status == IStatus.pending && decide (kr.2.scheduledAt ≤ now))) :=
    (List.take_sublist 50 _).subset hkr
  have hkr3 := (sortSched_perm _).subset hkr2
  have hmem := List.mem_of_mem_filter hkr3
  have hpred := List.of_mem_filter hkr3
  have hpend : kr.2.status = .pending := by
    have := (Bool.and_eq_true _ _).mp hpred
    simpa using this.1
  have hlook : List.lookup i db.sched = some kr.2 := by
    apply lookup_eq_of_mem_of_nodup _ _ _ hnd
    rw [← hfst]
    exact hmem
  unfold statusOf at hst
  rw [hlook] at hst
  cases hst
  exact hpend

theorem pendingFetch_nodup (db : ProDB) (now : ℤ) (hnd : KeysNodup db) :
    (pendingFetch db now).Nodup := by
  unfold pendingFetch
  have h1 : ((db.sched.filter
      (fun kr => kr.2.status == IStatus.pending && decide (kr.2.scheduledAt ≤ now))).map
        Prod.fst).Nodup :=
    hnd.sublist ((List.filter_sublist _).map Prod.fst)
  have h2 : ((sortSched (db.sched.filter
      (fun kr => kr.2.status == IStatus.pending && decide (kr.2.scheduledAt ≤ now)))).map
        Prod.fst).Nodup :=
    (((sortSched_perm _).map Prod.fst).nodup_iff).mpr h1
  exact h2.sublist ((List.take_sublist 50 _).map Prod.fst)

theorem sweep_fold_evolves (now : ℤ) (outcome : ℕ → Bool) (msg : ℕ → String) :
    ∀ (ids : List ℕ) (db : ProDB), ids.Nodup →
    (∀ i ∈ ids, ∀ st, statusOf db i = some st → st = .pending) →
    ∀ j, StatusEvolves db
      (ids.foldl (fun d id =>
        if outcome id then markSent d id (msg id) now
        else markFailed d id "Failed to send via Telegram") db) j := by
  intro ids
  induction ids with
  | nil =>
      intro db _ _ j
      exact statusEvolves_of_eq rfl
  | cons i rest ih =>
      intro db hnd hpre j
      rw [List.foldl_cons]
      have hstep : StatusEvolves db
          (if outcome i then markSent db i (msg i) now
           else markFailed db i "Failed to send via Telegram") j := by
        by_cases ho : outcome i
        · rw [if_pos ho]
          exact step_markSent db i (msg i) now (hpre i (List.mem_cons_self i rest)) j
        · rw [if_neg ho]
          exact step_markFailed db i "Failed to send via Telegram"
            (hpre i (List.mem_cons_self i rest)) j
      have hunch : ∀ i2 ∈ rest, statusOf
          (if outcome i then markSent db i (msg i) now
           else markFailed db i "Failed to send via Telegram") i2 = statusOf db i2 := by
        intro i2 hi2
        have hne : i2 ≠ i := by
          intro he
          subst he
          exact (List.nodup_cons.mp hnd).1 hi2
        by_cases ho : outcome i
        · rw [if_pos ho, statusOf_markSent, if_neg hne]
        · rw [if_neg ho, statusOf_markFailed, if_neg hne]
      have hrest := ih
        (if outcome i then markSent db i (msg i) now
         else markFailed db i "Failed to send via Telegram")
        (List.nodup_cons.mp hnd).2
        (by
          intro i2 hi2 st hst
          rw [hunch i2 hi2] at hst
          exact hpre i2 (List.mem_cons_of_mem i hi2) st hst)
        j
      exact statusEvolves_trans hstep hrest

theorem step_sweep (db : ProDB) (now : ℤ) (outcome : ℕ → Bool) (msg : ℕ → String)
    (hnd : KeysNodup db) (j : ℕ) :
    StatusEvolves db (runSweep db now outcome msg) j := by
  unfold runSweep
  exact sweep_fold_evolves now outcome msg (pendingFetch db now) db
    (pendingFetch_nodup db now hnd) (pendingFetch_pending db now hnd) j

theorem step_guarded (db : ProDB) (op : EngineOp) (hnd : KeysNodup db)
    (hok : GuardOk db op) (j : ℕ) : StatusEvolves db (applyOp db op) j := by
  cases op with
  | sweep now outcome msg => exact step_sweep db now outcome msg hnd j
  | markSentOp id m now => exact step_markSent db id m now hok j
  | markFailedOp id err => exact step_markFailed db id err hok j
  | cancelOldOp now =>
      exact step_cancelWith db
        (fun r => r.status = .pending ∧ r.scheduledAt < now - 172800)
        (fun r hr => hr.1) j
  | cancelUserOp uid =>
      exact step_cancelWith db
        (fun r => r.status = .pending ∧ r.userId = uid)
        (fun r hr => hr.1) j
  | cancelUserUntilOp uid pauseUntil =>
      exact step_cancelWith db
        (fun r => r.status = .pending ∧ r.userId = uid ∧ r.scheduledAt ≤ pauseUntil)
        (fun r hr => hr.1) j
  | respondOp uid now message emotion =>
      exact statusEvolves_of_eq (statusOf_processUserResponse db uid now message emotion j)

theorem runOps_evolves (ops : List EngineOp) : ∀ db : ProDB, KeysNodup db →
    Guarded db ops → ∀ j, StatusEvolves db (runOps db ops) j := by
  induction ops with
  | nil =>
      intro db _ _ j
      exact statusEvolves_of_eq rfl
  | cons op rest ih =>
      intro db hnd hg j
      have hnd2 : KeysNodup (applyOp db op) := by
        unfold KeysNodup
        rw [keys_applyOp]
        exact hnd
      exact statusEvolves_trans (step_guarded db op hnd hg.1 j)
        (ih (applyOp db op) hnd2 hg.2 j)

/-- Claim C9 (amended): for every schedule row and every sequence of engine
operations in which the raw mark-sent / mark-failed updates are only applied
to rows that are pending (or absent) at the moment of the update — which the
dispatch sweep guarantees by drawing ids from the pending query, their SQL
carrying no status guard of its own — the row's status either stays unchanged
or moves from pending to one of sent, cancelled, failed, and a status that is
terminal at the start of the sequence never changes. -/
theorem initiation_status_transitions (ops : List EngineOp) (db : ProDB)
    (hnd : KeysNodup db) (hg : Guarded db ops) (j : ℕ) :
    (statusOf (runOps db ops) j = statusOf db j ∨
      (statusOf db j = some .pending ∧
        ∃ t, statusOf (runOps db ops) j = some t ∧ IsTerminal t)) ∧
    (∀ t, statusOf db j = some t → IsTerminal t →
      statusOf (runOps db ops) j = some t) := by
  have h := runOps_evolves ops db hnd hg j
  refine ⟨h, ?_⟩
  intro t ht hterm
  rcases h with h | ⟨hp, t2, ht2, hterm2⟩
  · rw [h, ht]
  · rw [ht] at hp
    have he : t = .pending := Option.some.inj hp
    subst he
    rcases hterm with h | h | h <;> cases h

/-- Witness for C9 (amended): a dispatch sweep over a single pending row is a
guarded sequence; the theorem applies, and the row indeed ends sent. -/
theorem initiation_status_transitions_check :
    statusOf (runOps dbPend [.sweep 10 (fun _ => true) (fun _ => "hi")]) 0 =
      some .sent ∧
    (statusOf (runOps dbPend [.sweep 10 (fun _ => true) (fun _ => "hi")]) 0 =
        statusOf dbPend 0 ∨
      (statusOf dbPend 0 = some .pending ∧
        ∃ t, statusOf (runOps dbPend [.sweep 10 (fun _ => true) (fun _ => "hi")]) 0 =
          some t ∧ IsTerminal t)) := by
  have h := initiation_status_transitions [.sweep 10 (fun _ => true) (fun _ => "hi")]
    dbPend (show (dbPend.sched.map Prod.fst).Nodup by decide) ⟨trivial, trivial⟩ 0
  exact ⟨by decide, h.1⟩

/-- Counterexample to claim C9 as stated: the raw mark updates are listed
among the engine operations and their SQL `UPDATE ... WHERE id = %s` carries
no status guard, so the sequence mark-sent; mark-failed moves a row from the
terminal status sent to failed — a terminal state does change. -/
theorem initiation_status_not_monotone_raw :
    statusOf (applyOp dbPend (.markSentOp 0 "m" 100)) 0 = some .sent ∧
    IsTerminal .sent ∧
    statusOf (applyOp (applyOp dbPend (.markSentOp 0 "m" 100))
      (.markFailedOp 0 "err")) 0 = some .failed ∧
    IStatus.sent ≠ IStatus.failed :=
  ⟨by decide, Or.inl rfl, by decide, by decide⟩

theorem filter_eq_singleton_logs (l : List LogRow) (p : LogRow → Bool) (e : LogRow)
    (hnd : (l.map (fun x => x.logId)).Nodup) (hmem : e ∈ l) (hpe : p e = true)
    (honly : ∀ x ∈ l, p x = true → x = e) : l.filter p = [e] := by
  induction l with
  | nil => cases hmem
  | cons a t ih =>
      rw [List.map_cons, List.nodup_cons] at hnd
      rcases List.mem_cons.mp hmem with heq | hmt
      · subst heq
        rw [List.filter_cons, if_pos hpe]
        have ht : t.filter p = [] := by
          apply List.filter_eq_nil_iff.mpr
          intro x hx hpx
          have hxe := honly x (List.mem_cons_of_mem _ hx) (by simpa using hpx)
          subst hxe
          exact (hnd.1 (List.mem_map.mpr ⟨x, hx, rfl⟩)).elim
        rw [ht]
      · have hpa : p a = false := by
          cases hy : p a with
          | false => rfl
          | true =>
              have hae := honly a (List.mem_cons_self a t) hy
              subst hae
              exact (hnd.1 (List.mem_map.mpr ⟨a, hmt, rfl⟩)).elim
        rw [List.filter_cons, if_neg (by simp [hpa])]
        exact ih hnd.2 hmt (fun x hx hpx => honly x (List.mem_cons_of_mem a hx) hpx)

/-- Claim C8: with exactly one unresponded log entry of the user inside the
24-hour window, a response 12 minutes after that entry's creation returns
true, marks the entry responded with a response time of 12 minutes, and sets
the linked schedule row's response-received flag; a response one minute later
finds no unresponded entry and returns false leaving the state unchanged. -/
theorem process_user_response_roundtrip
    (db : ProDB) (uid : ℕ) (e : LogRow) (msg1 msg2 : String) (em1 em2 : Option String)
    (hnd : (db.logs.map (fun l => l.logId)).Nodup)
    (hmem : e ∈ db.logs)
    (huid : e.userId = uid)
    (hunresp : e.responded = false)
    (hothers : ∀ e2 ∈ db.logs, e2 ≠ e → e2.userId = uid → e2.responded = false →
      e2.createdAt ≤ e.createdAt + 720 - 86400) :
    (processUserResponse db uid (e.createdAt + 720) msg1 em1).1 = true ∧
    { e with responded := true,
             response := some (msg1.take 1000),
             responseEmotion := em1,
             responseSentiment := some (analyzeResponseSentiment msg1 em1),
             responseLength := some msg1.length,
             responseTimeMinutes := some 12 } ∈
      (processUserResponse db uid (e.createdAt + 720) msg1 em1).2.logs ∧
    (∀ sid, e.schedId = some sid →
      (((processUserResponse db uid (e.createdAt + 720) msg1 em1).2.sched.lookup sid).map
          (fun r => r.responseReceived)) =
        ((db.sched.lookup sid).map (fun _ => true))) ∧
    (processUserResponse (processUserResponse db uid (e.createdAt + 720) msg1 em1).2
        uid (e.createdAt + 720 + 60) msg2 em2).1 = false ∧
    (processUserResponse (processUserResponse db uid (e.createdAt + 720) msg1 em1).2
        uid (e.createdAt + 720 + 60) msg2 em2).2 =
      (processUserResponse db uid (e.createdAt + 720) msg1 em1).2 := by
  have hfil1 : db.logs.filter
      (fun l => l.userId == uid && !l.responded &&
        decide (e.createdAt + 720 - 86400 < l.createdAt)) = [e] := by
    apply filter_eq_singleton_logs _ _ _ hnd hmem
    · simp only [Bool.and_eq_true, beq_iff_eq, Bool.not_eq_true', decide_eq_true_eq]
      exact ⟨⟨huid, hunresp⟩, by omega⟩
    · intro x hx hpx
      by_contra hne
      simp only [Bool.and_eq_true, beq_iff_eq, Bool.not_eq_true', decide_eq_true_eq] at hpx
      obtain ⟨⟨hxu, hxr⟩, hxc⟩ := hpx
      have := hothers x hx hne hxu hxr
      omega
  have h12 : pyIntQ (((e.createdAt + 720 - e.createdAt : ℤ) : ℚ) / 60) = 12 := by
    have hsub : e.createdAt + 720 - e.createdAt = (720 : ℤ) := by ring
    rw [hsub]
    have hq : ((720 : ℤ) : ℚ) / 60 = 12 := by norm_num
    rw [hq]
    unfold pyIntQ
    rw [if_pos (by norm_num)]
    norm_num
  have hr1 : processUserResponse db uid (e.createdAt + 720) msg1 em1 =
      (true,
        { sched :=
            (match e.schedId with
             | some sid => updSched db.sched
                 (fun k r => if k = sid then { r with responseReceived := true } else r)
             | none => db.sched),
          logs := db.logs.map
            (fun l =>
              if l.logId = e.logId then
                { l with
                  response := some (msg1.take 1000),
                  responseEmotion := em1,
                  responseSentiment := some (analyzeResponseSentiment msg1 em1),
                  responseLength := some msg1.length,
                  responded := true,
                  responseTimeMinutes :=
                    some (pyIntQ (((e.createdAt + 720 - e.createdAt : ℤ) : ℚ) / 60)) }
              else l) }) := by
    simp only [processUserResponse, hfil1]
    rfl
  rw [hr1]
  dsimp only
  have hfil2 : (db.logs.map
      (fun l =>
        if l.logId = e.logId then
          { l with
            response := some (msg1.take 1000),
            responseEmotion := em1,
            responseSentiment := some (analyzeResponseSentiment msg1 em1),
            responseLength := some msg1.length,
            responded := true,
            responseTimeMinutes :=
              some (pyIntQ (((e.createdAt + 720 - e.createdAt : ℤ) : ℚ) / 60)) }
        else l)).filter
      (fun l => l.userId == uid && !l.responded &&
        decide (e.createdAt + 720 + 60 - 86400 < l.createdAt)) = [] := by
    apply List.filter_eq_nil_iff.mpr
    intro x hx
    rcases List.mem_map.mp hx with ⟨y, hy, rfl⟩
    by_cases hyl : y.logId = e.logId
    · rw [if_pos hyl]
      simp
    · rw [if_neg hyl]
      have hyne : y ≠ e := fun he => hyl (by rw [he])
      simp only [Bool.and_eq_true, beq_iff_eq, Bool.not_eq_true', decide_eq_true_eq, not_and]
      intro hcond hyc
      obtain ⟨hyu, hyr⟩ := hcond
      have := hothers y hy hyne hyu hyr
      omega
  refine ⟨rfl, ?_, ?_, ?_, ?_⟩
  · refine List.mem_map.mpr ⟨e, hmem, ?_⟩
    rw [if_pos rfl, h12]
  · intro sid hsid
    rw [hsid]
    dsimp only
    rw [lookup_updSched]
    cases db.sched.lookup sid with
    | none => rfl
    | some r => simp
  · simp only [processUserResponse, hfil2]
    rfl
  · simp only [processUserResponse, hfil2]
    rfl

/-- Witness for C8: the concrete single-entry database — the first call (12
minutes after creation) returns true, records a 12-minute response time and
sets the schedule flag; the second call one minute later returns false. -/
theorem process_user_response_roundtrip_check :
    (processUserResponse dbC8 7 (logC8.createdAt + 720) "спасибо" (some "joy")).1 = true ∧
    ({ logC8 with
        responded := true,
        response := some ("спасибо".take 1000),
        responseEmotion := some "joy",
        responseSentiment := some (analyzeResponseSentiment "спасибо" (some "joy")),
        responseLength := some "спасибо".length,
        responseTimeMinutes := some 12 } ∈
      (processUserResponse dbC8 7 (logC8.createdAt + 720) "спасибо" (some "joy")).2.logs) ∧
    (((processUserResponse dbC8 7 (logC8.createdAt + 720) "спасибо"
        (some "joy")).2.sched.lookup 3).map (fun r => r.responseReceived) = some true) ∧
    (processUserResponse
        (processUserResponse dbC8 7 (logC8.createdAt + 720) "спасибо" (some "joy")).2
        7 (logC8.createdAt + 720 + 60) "ещё" none).1 = false := by
  have h := process_user_response_roundtrip dbC8 7 logC8 "спасибо" "ещё" (some "joy") none
    (by decide) (by decide) (by decide) (by decide)
    (by
      intro e2 he2 hne _ _
      have : e2 = logC8 := by
        simp only [dbC8, List.mem_singleton] at he2
        exact he2
      exact absurd this hne)
  refine ⟨h.1, h.2.1, ?_, h.2.2.2.1⟩
  rw [h.2.2.1 3 rfl]
  decide

/-- Claim C6: volatility is exactly 0.5 for histories shorter than 5; 0.5
when fewer than 2 per-user-turn vectors arise; otherwise the standard
deviation of consecutive cosine distances times 2, clipped to [0, 1]. -/
theorem calculate_style_volatility_cases (h : List Msg) :
    (h.length < 5 → calculateStyleVolatility h = 1/2) ∧
    (5 ≤ h.length → (styleVectors h).length < 2 → calculateStyleVolatility h = 1/2) ∧
    (5 ≤ h.length → 2 ≤ (styleVectors h).length →
      calculateStyleVolatility h =
        clip01R (listStd (consecDists (styleVectors h)) * 2)) := by
  refine ⟨?_, ?_, ?_⟩
  · intro h5
    simp only [calculateStyleVolatility]
    rw [if_pos h5]
  · intro h5 hv
    simp only [calculateStyleVolatility]
    rw [if_neg (by omega), if_pos hv]
  · intro h5 hv
    simp only [calculateStyleVolatility]
    rw [if_neg (by omega), if_neg (by omega)]
    have hlen : 0 < (consecDists (styleVectors h)).length := by
      unfold consecDists
      rw [List.length_zipWith, List.length_tail]
      omega
    have hne : (consecDists (styleVectors h)).isEmpty = false := by
      cases hd : consecDists (styleVectors h) with
      | nil => rw [hd] at hlen; cases hlen
      | cons a t => rfl
    rw [hne]
    simp only [Bool.false_eq_true, if_false]

/-- Witness for C6: a length-3 history gives exactly 0.5, and a length-5
history with 5 user turns falls into the std-of-distances branch. -/
theorem calculate_style_volatility_cases_check :
    calculateStyleVolatility (List.replicate 3 msgTalk) = 1/2 ∧
    calculateStyleVolatility histTalk5 =
      clip01R (listStd (consecDists (styleVectors histTalk5)) * 2) :=
  ⟨(calculate_style_volatility_cases (List.replicate 3 msgTalk)).1 (by decide),
   (calculate_style_volatility_cases histTalk5).2.2 (by decide) (by decide)⟩

-- mean / std of constant lists

theorem listMean_replicate (n : ℕ) (x : ℝ) (hn : n ≠ 0) :
    listMean (List.replicate n x) = x := by
  unfold listMean
  rw [List.sum_replicate, List.length_replicate, nsmul_eq_mul]
  exact mul_div_cancel_left₀ x (Nat.cast_ne_zero.mpr hn)

theorem listStd_replicate (n : ℕ) (x : ℝ) (hn : n ≠ 0) :
    listStd (List.replicate n x) = 0 := by
  unfold listStd
  rw [listMean_replicate n x hn, List.map_replicate, sub_self,
    zero_pow (two_ne_zero)]
  have hm0 : listMean (List.replicate n (0 : ℝ)) = 0 := by
    unfold listMean
    rw [List.sum_replicate, smul_zero, zero_div]
  rw [hm0, Real.sqrt_zero]

theorem listMeanQ_replicate (n : ℕ) (x : ℚ) (hn : n ≠ 0) :
    listMeanQ (List.replicate n x) = x := by
  unfold listMeanQ
  rw [List.sum_replicate, List.length_replicate, nsmul_eq_mul]
  exact mul_div_cancel_left₀ x (Nat.cast_ne_zero.mpr hn)

theorem listVarQ_replicate (n : ℕ) (x : ℚ) (hn : n ≠ 0) :
    listVarQ (List.replicate n x) = 0 := by
  unfold listVarQ
  rw [listMeanQ_replicate n x hn, List.map_replicate, sub_self,
    zero_pow (two_ne_zero)]
  unfold listMeanQ
  rw [List.sum_replicate, smul_zero, zero_div]

-- concrete volatility and entropy of the constant 5-message history

theorem styleVectors_histTalk5 :
    styleVectors histTalk5 = List.replicate 5 (encodeUserStyle [msgTalk]) := rfl

theorem volatility_histTalk5 : calculateStyleVolatility histTalk5 = 0 := by
  simp only [calculateStyleVolatility]
  rw [if_neg (by decide), styleVectors_histTalk5, if_neg (by decide)]
  have hds : consecDists (List.replicate 5 (encodeUserStyle [msgTalk])) =
      List.replicate 4 (cosDist (encodeUserStyle [msgTalk]) (encodeUserStyle [msgTalk])) := rfl
  rw [hds]
  have hne : (List.replicate 4 (cosDist (encodeUserStyle [msgTalk])
      (encodeUserStyle [msgTalk]))).isEmpty = false := rfl
  rw [hne]
  simp only [Bool.false_eq_true, if_false]
  rw [listStd_replicate 4 _ (by norm_num), zero_mul]
  unfold clip01R
  norm_num

theorem entropy_histTalk5 : calculateDialogueEntropy histTalk5 = 0 := by
  simp only [calculateDialogueEntropy]
  rw [if_neg (by decide)]
  have hmodes : histTalk5.map msgMode = "talk" :: List.replicate 4 "talk" := by decide
  rw [hmodes]
  have hcc : countChanges "talk" (List.replicate 4 "talk") = 0 := by decide
  dsimp only
  rw [hcc]
  have hfil : histTalk5.filter (fun m => m.role == "user") = histTalk5 := by decide
  rw [hfil]
  have hmap : histTalk5.map (fun m => (m.content.length : ℚ)) =
      List.replicate 5 ((msgTalk.content.length : ℕ) : ℚ) := rfl
  rw [hmap]
  have hie : (List.replicate 5 ((msgTalk.content.length : ℕ) : ℚ)).isEmpty = false := rfl
  rw [hie]
  simp only [Bool.false_eq_true, if_false]
  rw [listVarQ_replicate 5 _ (by norm_num), zero_div]
  have hlen : (histTalk5.length : ℚ) = 5 := by norm_num [histTalk5]
  rw [hlen]
  norm_num

/-- Claim C1: a cache-served call (unauthorized, cached value present, no
invalidation trigger) leaves all injection counters unchanged; every call
that falls through to composition increments exactly the calling user's
counter by one, for both authorized and unauthorized users. -/
theorem generate_injection_counter (cfg : InjectionConfig) (s : InjState)
    (u : ℕ) (mode emotion : String) (hist : List Msg) (violation : Option String)
    (isAuthorized : Bool) (ltm : List InjMemory) :
    (cacheServed s u mode emotion hist violation isAuthorized →
      (generateInjection cfg s u mode emotion hist violation isAuthorized ltm).2.counts =
        s.counts) ∧
    (¬ cacheServed s u mode emotion hist violation isAuthorized →
      ∀ v, (generateInjection cfg s u mode emotion hist violation isAuthorized ltm).2.counts v =
        if v = u then s.counts v + 1 else s.counts v) := by
  constructor
  · intro hc
    simp only [generateInjection]
    rw [dif_pos hc]
  · intro hc
    simp only [generateInjection]
    rw [dif_neg hc]
    intro v
    by_cases hauth : isAuthorized = true
    · rw [if_pos hauth]
    · rw [if_neg hauth]

/-- the empty Redis state never serves from cache (nothing is cached) -/
theorem notCacheServedZero :
    ¬ cacheServed zeroInjState 1 "talk" "joy" [] none false := by
  intro hc
  have h1 := hc.1
  simp [zeroInjState, cacheServed] at h1

/-- the prepared state serves from cache: a value is cached under the right
key, the user is unauthorized, and no invalidation trigger fires on the
constant 5-message history -/
theorem cacheServedHit :
    cacheServed hitInjState 1 "talk" "joy" histTalk5 none false := by
  refine ⟨?_, rfl, ?_⟩
  · show (hitInjState.cache (generateCacheKey 1 "talk" "joy" none)).isSome = true
    have hk : generateCacheKey 1 "talk" "joy" none = cacheKeyTJ := rfl
    rw [hk]
    simp [hitInjState]
  · intro htrig
    rcases htrig with h | h | h
    · rcases h with ⟨le, hle, _⟩
      simp [hitInjState] at hle
    · unfold volatilityTrigger at h
      rw [volatility_histTalk5] at h
      norm_num at h
    · unfold entropyTrigger at h
      rcases h with h | ⟨_, he⟩
      · simp at h
      · rw [entropy_histTalk5] at he
        norm_num at he

/-- Witness for C1: the cache-served call leaves the counters unchanged, and
the fresh call on the empty state sets the user's counter from 0 to 1. -/
theorem generate_injection_counter_check :
    (generateInjection {} hitInjState 1 "talk" "joy" histTalk5 none false []).2.counts =
      hitInjState.counts ∧
    (generateInjection {} zeroInjState 1 "talk" "joy" [] none false []).2.counts 1 = 1 := by
  constructor
  · exact (generate_injection_counter {} hitInjState 1 "talk" "joy" histTalk5
      none false []).1 cacheServedHit
  · have h2 := (generate_injection_counter {} zeroInjState 1 "talk" "joy" []
      none false []).2 notCacheServedZero 1
    rw [h2, if_pos rfl]
    rfl

/-- Claim C3 (amended): every unauthorized call that composes a fresh
injection writes the cache entry under the call's key with time-to-live
`int(int(base_ttl * (0.3 + 0.7*(1 - volatility))) * (1 + log(max(1,
user_activity))))` — the volatility factor applied in `generate_injection`,
then the factor `1 + log(max(1, user_activity))` (not `log(max(1,
user_activity))`) inside the cache-write primitive. -/
theorem generate_injection_cache_ttl (cfg : InjectionConfig) (s : InjState)
    (u : ℕ) (mode emotion : String) (hist : List Msg) (violation : Option String)
    (ltm : List InjMemory)
    (hns : ¬ cacheServed s u mode emotion hist violation false) :
    (generateInjection cfg s u mode emotion hist violation false ltm).2.cache
        (generateCacheKey u mode emotion violation) =
      some (injectionText (composeComponents cfg mode emotion hist violation false ltm).1,
        cacheWriteTtl (dynamicGenTtl cfg (calculateStyleVolatility hist))
          (s.userActivity u)) := by
  simp only [generateInjection]
  rw [dif_neg hns]
  simp only [Bool.false_eq_true, if_false]
  simp only [if_true]

-- numeric evaluation of the TTL pipeline at volatility 1/2 and activity 1

theorem volatility_nil : calculateStyleVolatility [] = 1/2 := by
  simp only [calculateStyleVolatility]
  rw [if_pos (by decide)]

theorem dynamicGenTtl_default_half : dynamicGenTtl {} (1/2) = 2340 := by
  unfold dynamicGenTtl
  have hv : (({} : InjectionConfig).cacheTtl : ℝ) * (3/10 + 7/10 * (1 - 1/2)) = 2340 := by
    norm_num
  rw [hv]
  unfold pyInt
  rw [if_pos (by norm_num)]
  norm_num

theorem cacheWriteTtl_at_one (ttl : ℤ) (h : 0 ≤ ttl) : cacheWriteTtl ttl 1 = ttl := by
  unfold cacheWriteTtl
  have h1 : max (1 : ℝ) (((1 : ℤ) : ℝ)) = 1 := by norm_num
  rw [h1, Real.log_one]
  unfold pyInt
  rw [if_pos (by positivity)]
  norm_num

theorem claimedWriteTtl_at_one (ttl : ℤ) : claimedWriteTtl ttl 1 = 0 := by
  unfold claimedWriteTtl
  have h1 : max (1 : ℝ) (((1 : ℤ) : ℝ)) = 1 := by norm_num
  rw [h1, Real.log_one, mul_zero]
  unfold pyInt
  rw [if_pos le_rfl]
  norm_num

/-- Counterexample to claim C3 as stated: the cache-write primitive scales by
`1 + log(max(1, user_activity))`, not by `log(max(1, user_activity))`.  At
user activity 1 the spec's formula yields TTL 0, while the code writes the
full volatility-scaled TTL 2340 (base 3600, volatility 0.5). -/
theorem cache_ttl_log_counterexample :
    (generateInjection {} zeroInjState 1 "talk" "joy" [] none false []).2.cache cacheKeyTJ =
      some (injectionText (composeComponents {} "talk" "joy" [] none false []).1, 2340) ∧
    claimedWriteTtl (dynamicGenTtl {} (calculateStyleVolatility [])) 1 = 0 ∧
    (2340 : ℤ) ≠ 0 := by
  refine ⟨?_, ?_, by norm_num⟩
  · simp only [generateInjection]
    rw [dif_neg notCacheServedZero]
    simp only [Bool.false_eq_true, if_false]
    have hk : cacheKeyTJ = generateCacheKey 1 "talk" "joy" none := rfl
    rw [hk, if_pos rfl]
    have hact : zeroInjState.userActivity 1 = 1 := rfl
    rw [hact, volatility_nil, dynamicGenTtl_default_half,
      cacheWriteTtl_at_one 2340 (by norm_num)]
  · rw [volatility_nil, dynamicGenTtl_default_half, claimedWriteTtl_at_one]

/-- Witness for C3 (amended): the theorem applies to the fresh unauthorized
call on the empty state; the written TTL evaluates to 2340 seconds. -/
theorem generate_injection_cache_ttl_check :
    (generateInjection {} zeroInjState 1 "talk" "joy" [] none false []).2.cache cacheKeyTJ =
      some (injectionText (composeComponents {} "talk" "joy" [] none false []).1,
        cacheWriteTtl (dynamicGenTtl {} (calculateStyleVolatility [])) 1) ∧
    cacheWriteTtl (dynamicGenTtl {} (calculateStyleVolatility [])) 1 = 2340 := by
  constructor
  · exact generate_injection_cache_ttl {} zeroInjState 1 "talk" "joy" [] none []
      notCacheServedZero
  · rw [volatility_nil, dynamicGenTtl_default_half,
      cacheWriteTtl_at_one 2340 (by norm_num)]
